import Mathlib

/-!
Shallow embedding of the VIN reconciliation pipeline of `src/app.py`
(repository `littlecm/gmcdksync`).

The pipeline reads three CSV files (CDK, D2C2, removed vehicles),
renames their columns, outer-joins CDK and D2C2 on VIN, classifies each
merged row by which sources contributed, evaluates five business
criteria, flags rows expected in both sources, left-joins the
D2C2-only subset against the removed list on stock number, overrides
the criteria text for rows matched with removed status "G", recombines
and sorts.

Modelling conventions:
* a pandas cell that may be NaN is an `Option String` (`none` = NaN);
  `pd.notna` is `Option.isSome`, `pd.isna` is `Option.isNone`;
* Python `float(...)` on the stripped balance string is `pyFloat`,
  returning `none` where `float` raises `ValueError`; the uncaught
  exception is propagated as `Except.error ()`;
* a data frame is a `List` of row structures; renamed columns appear
  directly as the structure fields.
-/

/-- A row of the CDK CSV after column renaming: `VIN`, `Stock # CDK`,
`Stock Type`, `Status_CDK`, `Deal No.`, `Balance`. Every non-key cell
may be empty (NaN). -/
structure CdkRow where
  vin : String
  stockNum : Option String
  stockType : Option String
  status : Option String
  dealNo : Option String
  balance : Option String
deriving DecidableEq

/-- A row of the D2C2 CSV after column renaming: `VIN`, `Stock # D2C2`,
`Status_D2C2`. -/
structure D2c2Row where
  vin : String
  stockNum : Option String
  status : Option String
deriving DecidableEq

/-- A row of the removed-vehicles CSV after column renaming:
`Stock # Removed`, `Status_Removed`. -/
structure RemovedRow where
  stockNum : Option String
  status : Option String
deriving DecidableEq

/-- A row of `merged_df` after the outer join of CDK and D2C2 on `VIN`:
the key plus both sources' renamed columns, each possibly NaN. -/
structure MergedRow where
  vin : String
  stockNumCdk : Option String
  stockType : Option String
  statusCdk : Option String
  dealNo : Option String
  balance : Option String
  stockNumD2c2 : Option String
  statusD2c2 : Option String
deriving DecidableEq

/-- The merged row produced for a CDK row and a D2C2 row sharing a VIN. -/
def mergeRows (c : CdkRow) (d : D2c2Row) : MergedRow :=
  { vin := c.vin, stockNumCdk := c.stockNum, stockType := c.stockType,
    statusCdk := c.status, dealNo := c.dealNo, balance := c.balance,
    stockNumD2c2 := d.stockNum, statusD2c2 := d.status }

/-- The merged row for a CDK row with no D2C2 partner: D2C2 columns NaN. -/
def cdkOnlyRow (c : CdkRow) : MergedRow :=
  { vin := c.vin, stockNumCdk := c.stockNum, stockType := c.stockType,
    statusCdk := c.status, dealNo := c.dealNo, balance := c.balance,
    stockNumD2c2 := none, statusD2c2 := none }

/-- The merged row for a D2C2 row with no CDK partner: CDK columns NaN. -/
def d2c2OnlyRow (d : D2c2Row) : MergedRow :=
  { vin := d.vin, stockNumCdk := none, stockType := none,
    statusCdk := none, dealNo := none, balance := none,
    stockNumD2c2 := d.stockNum, statusD2c2 := d.status }

/-- Full outer join of the CDK and D2C2 tables on `VIN`
(`pd.merge(cdk_df, d2c2_df, how='outer', on='VIN')`): every CDK row is
paired with each D2C2 row of equal VIN (or kept alone with NaN D2C2
columns), and D2C2 rows whose VIN appears in no CDK row are appended
with NaN CDK columns. The final report is re-sorted later, so the
relative order chosen here is immaterial. -/
def outerJoin (cdk : List CdkRow) (d2c2 : List D2c2Row) : List MergedRow :=
  (cdk.flatMap (fun c =>
    let ms := d2c2.filter (fun d => decide (d.vin = c.vin))
    if ms.isEmpty then [cdkOnlyRow c] else ms.map (mergeRows c))) ++
  (d2c2.filter (fun d => !(cdk.any (fun c => decide (c.vin = d.vin))))).map d2c2OnlyRow

/-- The `source_designation` row function of `src/app.py`: classify a
merged row by presence (`pd.notna`) of the two stock-number columns. -/
def source_designation (m : MergedRow) : String :=
  if m.stockNumCdk.isSome && m.stockNumD2c2.isSome then "Appearing in both sources"
  else if m.stockNumCdk.isSome && m.stockNumD2c2.isNone then "Appearing only in CDK"
  else if m.stockNumCdk.isNone && m.stockNumD2c2.isSome then "Appearing only in D2C2"
  else "Unknown"

/-- Python's `str.replace('$', '').replace(',', '')` applied to the
balance cell: delete every dollar sign and comma. -/
def stripCurrency (s : String) : String :=
  String.mk (s.toList.filter (fun c => !(c == '$' || c == ',')))

/-- Value of a digit string (most significant first). -/
def digitsToNat (l : List Char) : Nat :=
  l.foldl (fun a c => a * 10 + (c.toNat - 48)) 0

/-- A successfully parsed Python float, kept exact: the value denoted
is `mant / 10 ^ frac`. The program compares parsed balances only with
0, so the pair is never normalised; `toRat` gives the denoted value. -/
structure PyFloat where
  mant : Int
  frac : Nat
deriving DecidableEq

/-- The rational value a parsed float denotes. -/
def PyFloat.toRat (d : PyFloat) : Rat :=
  (d.mant : Rat) / (10 : Rat) ^ d.frac

/-- Python `float(x) <= 0` on a parsed value, computed on the exact
pair; `PyFloat.nonpos_iff` ties it to the denoted value. -/
def PyFloat.nonpos (d : PyFloat) : Bool :=
  decide (d.mant ≤ 0)

/-- Python `float(x) > 0` on a parsed value, computed on the exact
pair; `PyFloat.pos_iff` ties it to the denoted value. -/
def PyFloat.pos (d : PyFloat) : Bool :=
  decide (0 < d.mant)

/-- Models Python `float(...)` on the strings reaching it in this
program (currency amounts with `$` and `,` already stripped): optional
surrounding spaces, an optional sign, then digits with an optional
decimal point, at least one digit in all. Returns `none` exactly where
`float` raises `ValueError` on this fragment; exotic inputs accepted
by `float` (exponents, `inf`, `nan`, underscores) are outside the
shapes a currency column produces and are not modelled. -/
def pyFloat (s : String) : Option PyFloat :=
  let t := ((s.toList.dropWhile (fun c => c == ' ')).reverse.dropWhile
    (fun c => c == ' ')).reverse
  let sgn : Int := match t with
    | '-' :: _ => -1
    | _ => 1
  let t2 : List Char := match t with
    | '-' :: rest => rest
    | '+' :: rest => rest
    | _ => t
  let ip := t2.takeWhile Char.isDigit
  let rest := t2.dropWhile Char.isDigit
  match rest with
  | [] => if ip.isEmpty then none else some ⟨sgn * (digitsToNat ip : Int), 0⟩
  | '.' :: fp =>
    if fp.all Char.isDigit && !(ip.isEmpty && fp.isEmpty) then
      some ⟨sgn * ((digitsToNat ip : Int) * (10 : Int) ^ fp.length + (digitsToNat fp : Int)),
            fp.length⟩
    else none
  | _ => none

theorem PyFloat.pos_iff (d : PyFloat) : d.pos = true ↔ 0 < d.toRat := by
  have h10 : (0 : Rat) < (10 : Rat) ^ d.frac := by positivity
  rw [PyFloat.pos, PyFloat.toRat, decide_eq_true_eq, div_pos_iff]
  constructor
  · intro h
    exact Or.inl ⟨by exact_mod_cast h, h10⟩
  · rintro (⟨h, -⟩ | ⟨-, h⟩)
    · exact_mod_cast h
    · exact absurd h10 (not_lt.mpr h.le)

theorem PyFloat.nonpos_eq (d : PyFloat) : d.nonpos = !d.pos := by
  rw [PyFloat.nonpos, PyFloat.pos]
  rcases le_or_lt d.mant 0 with h | h
  · simp [h, not_lt.mpr h]
  · simp [h, not_le.mpr h]

/-- Python `value in [...]` where the cell may be NaN: a NaN cell is in
no list of strings. -/
def inVals (v : Option String) (l : List String) : Bool :=
  match v with
  | some s => l.contains s
  | none => false

/-- The balance test of `check_criteria` in `src/app.py`:
`pd.isna(row['Balance']) or float(row['Balance'].replace(...)) <= 0`
appends the label `Balance > $0`; a present value that `float` rejects
raises, modelled as `Except.error ()`. -/
def balanceLabels (b : Option String) : Except Unit (List String) :=
  match b with
  | none => Except.ok ["Balance > $0"]
  | some s =>
    match pyFloat (stripCurrency s) with
    | none => Except.error ()
    | some d => Except.ok (if d.nonpos then ["Balance > $0"] else [])

/-- The `unmet_conditions` list built by `check_criteria` in
`src/app.py`, in the order the code appends: Stock Type, Status,
Deal No., Balance, D2C2 Status. -/
def unmet_conditions (m : MergedRow) : Except Unit (List String) :=
  match balanceLabels m.balance with
  | Except.error e => Except.error e
  | Except.ok l4 =>
    Except.ok
      ((if inVals m.stockType ["NEW", "USED", "F"] then [] else ["Stock Type"]) ++
       (if inVals m.statusCdk ["S", "T"] then [] else ["Status"]) ++
       (if m.dealNo.isSome then ["Deal No. is not empty"] else []) ++ l4 ++
       (if m.statusD2c2 = some "InTransit" then ["D2C2 Status InTransit"] else []))

/-- The `check_criteria` row function of `src/app.py`: join the unmet
labels with `; `, or report `Meets all criteria` when none failed. -/
def check_criteria (m : MergedRow) : Except Unit String :=
  match unmet_conditions m with
  | Except.error e => Except.error e
  | Except.ok [] => Except.ok "Meets all criteria"
  | Except.ok l => Except.ok (String.intercalate "; " l)

/-- The `expected_criteria & merged_df['Stock # D2C2'].notna()` column
of `src/app.py`: conjunction of the isin tests, the balance test
(NaN treated as 0), `Deal No.` being NaN, `Status_D2C2` differing from
`InTransit`, and presence of the D2C2 stock number. A present balance
that `float` rejects raises, modelled as `Except.error ()`. -/
def expected_in_both (m : MergedRow) : Except Unit Bool :=
  match m.balance with
  | none => Except.ok false
  | some s =>
    match pyFloat (stripCurrency s) with
    | none => Except.error ()
    | some d =>
      Except.ok (inVals m.stockType ["NEW", "USED", "F"] &&
        inVals m.statusCdk ["S", "T"] && d.pos &&
        m.dealNo.isNone && !(decide (m.statusD2c2 = some "InTransit")) &&
        m.stockNumD2c2.isSome)

/-- A fully annotated row of the pipeline: the merged columns plus the
derived columns `Source Designation`, `Criteria Check`,
`Expected in Both Sources`, and the removal-join columns
`Stock # Removed`, `Status_Removed`, `Removed Match Status`
(NaN outside the reconciled subset). -/
structure FullRow where
  row : MergedRow
  sourceDesignation : String
  criteriaCheck : String
  expectedInBothSources : Bool
  stockNumRemoved : Option String
  statusRemoved : Option String
  removedMatchStatus : Option String
deriving DecidableEq

/-- Annotate one merged row with the three derived columns of
`src/app.py` lines 42-78; either criteria computation may raise. -/
def evalRow (m : MergedRow) : Except Unit FullRow :=
  match check_criteria m, expected_in_both m with
  | Except.ok cc, Except.ok ex =>
    Except.ok { row := m, sourceDesignation := source_designation m,
                criteriaCheck := cc, expectedInBothSources := ex,
                stockNumRemoved := none, statusRemoved := none,
                removedMatchStatus := none }
  | Except.error e, _ => Except.error e
  | _, Except.error e => Except.error e

/-- Annotate every merged row; the first raising row aborts the run. -/
def evalAll : List MergedRow → Except Unit (List FullRow)
  | [] => Except.ok []
  | m :: ms =>
    match evalRow m, evalAll ms with
    | Except.ok f, Except.ok fs => Except.ok (f :: fs)
    | Except.error e, _ => Except.error e
    | _, Except.error e => Except.error e

/-- The `Removed Match Status` lambda of `src/app.py` lines 85-90,
applied to the removal-join columns of a reconciled row. -/
def removed_match_status (stockRem statusRem : Option String) : String :=
  if stockRem.isSome && decide (statusRem = some "G") then "Match and G"
  else if stockRem.isSome then "Match but not G"
  else "No Match"

/-- Left join of one D2C2-only row against the removed list on
`Stock # D2C2 = Stock # Removed` (`pd.merge(..., how='left')`),
followed by the `Removed Match Status` lambda: one output row per
matching removed entry, or a single row with NaN removal columns when
nothing matches. In the pipeline this is only reached for rows whose
`Stock # D2C2` is present. -/
def reconcileRow (removed : List RemovedRow) (f : FullRow) : List FullRow :=
  match removed.filter (fun r => decide (r.stockNum = f.row.stockNumD2c2)) with
  | [] => [{ f with stockNumRemoved := none, statusRemoved := none,
                    removedMatchStatus := some "No Match" }]
  | ms => ms.map (fun r =>
      { f with stockNumRemoved := r.stockNum, statusRemoved := r.status,
               removedMatchStatus := some (removed_match_status r.stockNum r.status) })

/-- The `update_criteria_check` row function of `src/app.py`: replace
`Criteria Check` with `G Status in CDK` exactly for D2C2-only rows
whose `Removed Match Status` is `Match and G`. -/
def update_criteria_check (f : FullRow) : FullRow :=
  if f.sourceDesignation = "Appearing only in D2C2" ∧
      f.removedMatchStatus = some "Match and G" then
    { f with criteriaCheck := "G Status in CDK" }
  else f

/-- The removal-reconciliation pass over the D2C2-only subset:
left join against the removed list, then the criteria override. -/
def reconcile_all (removed : List RemovedRow) (ev : List FullRow) : List FullRow :=
  ((ev.filter (fun f => decide (f.sourceDesignation = "Appearing only in D2C2"))).flatMap
    (reconcileRow removed)).map update_criteria_check

/-- The two sort keys of `sort_values(by=['Expected in Both Sources', 'VIN'],
ascending=[False, True])`: flag descending (true first), VIN ascending.
The VIN comparison is the lexicographic order on the character list,
which agrees with the order on strings (`String.le_iff_toList_le`). -/
def rowLE (a b : FullRow) : Bool :=
  if a.expectedInBothSources = b.expectedInBothSources then
    decide (a.row.vin.toList ≤ b.row.vin.toList)
  else a.expectedInBothSources

/-- Recombination and final sort of `src/app.py` lines 100-104: the
rows that are not D2C2-only, unchanged, concatenated with the
reconciled subset, sorted by the two keys. Any sort by these keys
models `sort_values`; no claim depends on the order of key-ties. -/
def assemble (removed : List RemovedRow) (ev : List FullRow) : List FullRow :=
  List.insertionSort (fun a b => rowLE a b = true)
    ((ev.filter (fun f => !decide (f.sourceDesignation = "Appearing only in D2C2"))) ++
      reconcile_all removed ev)

/-- The core of `process_files` in `src/app.py`: join, annotate,
reconcile, recombine, sort. An unparseable present balance anywhere
aborts the whole run. -/
def process_files (cdk : List CdkRow) (d2c2 : List D2c2Row)
    (removed : List RemovedRow) : Except Unit (List FullRow) :=
  match evalAll (outerJoin cdk d2c2) with
  | Except.error e => Except.error e
  | Except.ok ev => Except.ok (assemble removed ev)

/-- Condition 1 as the spec words it: `StockType` is one of NEW, USED, F. -/
def specCond1 (m : MergedRow) : Bool :=
  decide (m.stockType = some "NEW") || decide (m.stockType = some "USED") ||
    decide (m.stockType = some "F")

/-- Condition 2 as the spec words it: `StatusCdk` is one of S, T. -/
def specCond2 (m : MergedRow) : Bool :=
  decide (m.statusCdk = some "S") || decide (m.statusCdk = some "T")

/-- Condition 3 as the spec words it: `DealNumber` is absent. -/
def specCond3 (m : MergedRow) : Bool :=
  m.dealNo.isNone

/-- Condition 4 as the spec words it: `Balance` is present and, after
stripping `$` and thousands separators, parses to a value strictly
greater than 0; an absent balance counts as 0 and fails. -/
def specCond4 (m : MergedRow) : Bool :=
  match m.balance with
  | none => false
  | some s =>
    match pyFloat (stripCurrency s) with
    | none => false
    | some d => decide (0 < d.toRat)

/-- Condition 5 as the spec words it: `StatusD2c2` differs from
`InTransit` (an absent status differs). -/
def specCond5 (m : MergedRow) : Bool :=
  !(decide (m.statusD2c2 = some "InTransit"))

/-- The labels of the failed conditions in the spec's fixed order. -/
def specFailedLabels (m : MergedRow) : List String :=
  (if specCond1 m then [] else ["Stock Type"]) ++
  (if specCond2 m then [] else ["Status"]) ++
  (if specCond3 m then [] else ["Deal No. is not empty"]) ++
  (if specCond4 m then [] else ["Balance > $0"]) ++
  (if specCond5 m then [] else ["D2C2 Status InTransit"])

/-- C1: for every merged row, `Source Designation` is the pure
function of presence of the two stock-number columns given by the
four-way table: both present, only CDK's, only D2C2's, neither. -/
theorem source_designation_is_presence_table (m : MergedRow) :
    source_designation m =
      match m.stockNumCdk, m.stockNumD2c2 with
      | some _, some _ => "Appearing in both sources"
      | some _, none => "Appearing only in CDK"
      | none, some _ => "Appearing only in D2C2"
      | none, none => "Unknown" := by
  rcases m with ⟨v, sc, st, su, dn, ba, sd, s2⟩
  cases sc <;> cases sd <;> rfl

theorem inVals_stockType_eq (v : Option String) :
    inVals v ["NEW", "USED", "F"] =
      (decide (v = some "NEW") || decide (v = some "USED") || decide (v = some "F")) := by
  cases v <;> simp [inVals, List.contains_cons, Bool.or_assoc]

theorem inVals_status_eq (v : Option String) :
    inVals v ["S", "T"] = (decide (v = some "S") || decide (v = some "T")) := by
  cases v <;> simp [inVals, List.contains_cons]

theorem unmet_conditions_eq (m : MergedRow) (l : List String)
    (h : unmet_conditions m = Except.ok l) : l = specFailedLabels m := by
  unfold unmet_conditions at h
  unfold specFailedLabels specCond1 specCond2 specCond3 specCond4 specCond5
  rw [inVals_stockType_eq, inVals_status_eq] at h
  cases hb : m.balance with
  | none =>
    rw [hb] at h
    simp only [balanceLabels] at h
    injection h with h
    subst h
    simp [Option.isNone, Option.isSome]
    cases m.dealNo <;> simp
  | some s =>
    rw [hb] at h
    simp only [balanceLabels] at h
    cases hp : pyFloat (stripCurrency s) with
    | none => rw [hp] at h; cases h
    | some d =>
      rw [hp] at h
      injection h with h
      subst h
      rw [PyFloat.nonpos_eq] at *
      cases hdp : d.pos with
      | false =>
        have : ¬ (0 < d.toRat) := fun hc => by
          rw [(PyFloat.pos_iff d).mpr hc] at hdp; cases hdp
        simp [hp, hdp, this]
        cases m.dealNo <;> simp [Option.isNone, Option.isSome]
      | true =>
        have : 0 < d.toRat := (PyFloat.pos_iff d).mp hdp
        simp [hp, hdp, this]
        cases m.dealNo <;> simp [Option.isNone, Option.isSome]

/-- C2: for every merged row whose evaluation does not raise,
`Criteria Check` is `Meets all criteria` exactly when all five
conditions hold (stock type in NEW/USED/F; CDK status in S/T; deal
number absent; balance present and, stripped of currency symbols,
strictly positive, an absent balance counting as 0 and failing; D2C2
status not `InTransit`); otherwise it is the `; `-separated list of
exactly the failed labels in the fixed order Stock Type, Status,
Deal No. is not empty, Balance > $0, D2C2 Status InTransit. -/
theorem check_criteria_matches_spec (m : MergedRow) (s : String)
    (h : check_criteria m = Except.ok s) :
    (s = "Meets all criteria" ↔
      (specCond1 m = true ∧ specCond2 m = true ∧ specCond3 m = true ∧
        specCond4 m = true ∧ specCond5 m = true)) ∧
    (¬ (specCond1 m = true ∧ specCond2 m = true ∧ specCond3 m = true ∧
        specCond4 m = true ∧ specCond5 m = true) →
      s = String.intercalate "; " (specFailedLabels m)) := by
  unfold check_criteria at h
  cases hu : unmet_conditions m with
  | error e => rw [hu] at h; cases h
  | ok l =>
    have hl : l = specFailedLabels m := unmet_conditions_eq m l hu
    rw [hu] at h
    subst hl
    cases h1 : specCond1 m <;> cases h2 : specCond2 m <;> cases h3 : specCond3 m <;>
      cases h4 : specCond4 m <;> cases h5 : specCond5 m <;>
      simp only [specFailedLabels, h1, h2, h3, h4, h5, if_true, if_false,
        Bool.false_eq_true, List.append_nil, List.nil_append, List.cons_append,
        List.append_assoc] at h ⊢ <;>
      injection h with h <;> subst h <;> simp <;> decide

/-- A merged row satisfying all five criteria, present in both sources. -/
def allPassRow : MergedRow :=
  { vin := "1FA1", stockNumCdk := some "C100", stockType := some "NEW",
    statusCdk := some "S", dealNo := none, balance := some "$500.00",
    stockNumD2c2 := some "D200", statusD2c2 := some "Available" }

theorem check_criteria_matches_spec_witness :
    specCond1 allPassRow = true ∧ specCond2 allPassRow = true ∧
      specCond3 allPassRow = true ∧ specCond4 allPassRow = true ∧
      specCond5 allPassRow = true :=
  ((check_criteria_matches_spec allPassRow "Meets all criteria" (by rfl)).1).mp rfl

/-- C3: for every merged row whose evaluation does not raise, the
`Expected in Both Sources` flag is true exactly when conditions 1, 2,
4 and 5 pass, the deal number is absent, and the D2C2 stock number is
present; in particular a row without a D2C2 stock number is never
flagged, whatever its other fields. -/
theorem expected_in_both_characterization (m : MergedRow) (b : Bool)
    (h : expected_in_both m = Except.ok b) :
    (b = true ↔ (specCond1 m = true ∧ specCond2 m = true ∧ specCond4 m = true ∧
      specCond5 m = true ∧ m.dealNo = none ∧ m.stockNumD2c2.isSome = true)) ∧
    (m.stockNumD2c2 = none → b = false) := by
  obtain ⟨v, sc, st, su, dn, ba, sd, s2⟩ := m
  unfold expected_in_both at h
  rw [inVals_stockType_eq, inVals_status_eq] at h
  cases ba with
  | none =>
    dsimp only at h
    injection h with h
    subst h
    refine ⟨?_, fun _ => rfl⟩
    simp only [Bool.false_eq_true, false_iff]
    rintro ⟨-, -, h4, -⟩
    simp [specCond4] at h4
  | some s =>
    dsimp only at h
    cases hp : pyFloat (stripCurrency s) with
    | none => rw [hp] at h; cases h
    | some d =>
      rw [hp] at h
      injection h with h
      subst h
      have h4 : specCond4 ⟨v, sc, st, su, dn, some s, sd, s2⟩ = d.pos := by
        cases hdp : d.pos with
        | false =>
          have : ¬ (0 < d.toRat) := fun hc => by
            rw [(PyFloat.pos_iff d).mpr hc] at hdp; cases hdp
          simp [specCond4, hp, this]
        | true =>
          have : 0 < d.toRat := (PyFloat.pos_iff d).mp hdp
          simp [specCond4, hp, this]
      constructor
      · rw [specCond1, specCond2, h4, specCond5]
        rw [specCond4] at h4
        cases dn <;> cases sd <;>
          simp [Option.isNone, Option.isSome, and_assoc, and_comm, and_left_comm]
      · intro hnone
        simp only at hnone
        subst hnone
        simp

theorem expected_in_both_characterization_witness :
    specCond1 allPassRow = true ∧ specCond2 allPassRow = true ∧
      specCond4 allPassRow = true ∧ specCond5 allPassRow = true ∧
      allPassRow.dealNo = none ∧ allPassRow.stockNumD2c2.isSome = true :=
  ((expected_in_both_characterization allPassRow true (by rfl)).1).mp rfl

/-- A merged row whose Deal No. cell holds the empty string and whose
four other criteria all pass. -/
def emptyDealRow : MergedRow :=
  { vin := "3FA3", stockNumCdk := some "C300", stockType := some "NEW",
    statusCdk := some "S", dealNo := some "", balance := some "$5.00",
    stockNumD2c2 := some "D300", statusD2c2 := some "Available" }

/-- C9 is false on the code: the code tests `pd.notna(row['Deal No.'])`,
and a present empty string is not NaN, so a merged row whose Deal No.
cell holds the empty string still fails criterion 3 and `Criteria
Check` carries the label. -/
theorem deal_empty_string_still_fails :
    emptyDealRow.dealNo = some "" ∧
      check_criteria emptyDealRow = Except.ok "Deal No. is not empty" :=
  ⟨rfl, by rfl⟩

/-- C9 (amended): for every merged row whose evaluation does not
raise, the label `Deal No. is not empty` appears among the unmet
conditions exactly when the Deal No. cell is present (not NaN); a
present value fails criterion 3 even when it is the empty string, and
only an absent cell passes. -/
theorem deal_label_iff_deal_present (m : MergedRow) (l : List String)
    (h : unmet_conditions m = Except.ok l) :
    "Deal No. is not empty" ∈ l ↔ m.dealNo.isSome = true := by
  have hl := unmet_conditions_eq m l h
  subst hl
  have h3 : specCond3 m = !m.dealNo.isSome := by
    rw [specCond3]; cases m.dealNo <;> rfl
  cases h1 : specCond1 m <;> cases h2 : specCond2 m <;> cases hd : m.dealNo.isSome <;>
    cases h4 : specCond4 m <;> cases h5 : specCond5 m <;>
    simp_all [specFailedLabels, h3]

theorem deal_label_iff_deal_present_witness :
    "Deal No. is not empty" ∈ ["Deal No. is not empty"] :=
  (deal_label_iff_deal_present
    { vin := "4FA4", stockNumCdk := some "C400", stockType := some "NEW",
      statusCdk := some "S", dealNo := some "D-77", balance := some "$5.00",
      stockNumD2c2 := some "D400", statusD2c2 := some "Available" }
    ["Deal No. is not empty"] (by rfl)).mpr rfl

/-- A CDK row whose balance cell cannot be parsed as a number after
stripping currency symbols. -/
def badBalanceCdk : CdkRow :=
  { vin := "5FA5", stockNum := some "C500", stockType := some "NEW",
    status := some "S", dealNo := none, balance := some "$N/A" }

/-- C7: the code contradicts the spec here. On a present balance that
`float` cannot parse, `check_criteria` raises an uncaught `ValueError`
(modelled as `Except.error`), and the whole `process_files` run
aborts, instead of failing that record's evaluation deterministically
as the spec requires. -/
theorem balance_parse_error_aborts_run :
    check_criteria (cdkOnlyRow badBalanceCdk) = Except.error () ∧
      process_files [badBalanceCdk] [] [] = Except.error () :=
  ⟨by rfl, by rfl⟩

/-- A CDK row bearing a VIN but with an empty stock-number cell. -/
def noStockCdk : CdkRow :=
  { vin := "6FA6", stockNum := none, stockType := some "NEW",
    status := some "S", dealNo := none, balance := some "$5.00" }

/-- C8 is false on the code: `Unknown` is not reserved for VIN-less
rows. The CDK input row bearing VIN `6FA6` whose stock-number cell is
empty joins to a merged record whose two stock-number columns are both
NaN, and `source_designation` classifies it `Unknown`. -/
theorem unknown_for_vin_bearing_row :
    (outerJoin [noStockCdk] []).map (fun m => (m.vin, source_designation m)) =
      [("6FA6", "Unknown")] := by rfl

theorem source_designation_cdkOnly (c : CdkRow) (h : c.stockNum.isSome = true) :
    source_designation (cdkOnlyRow c) = "Appearing only in CDK" := by
  cases hcs : c.stockNum with
  | none => rw [hcs] at h; cases h
  | some a => simp [cdkOnlyRow, source_designation, hcs]

theorem source_designation_merge (c : CdkRow) (d : D2c2Row)
    (hc : c.stockNum.isSome = true) (hd : d.stockNum.isSome = true) :
    source_designation (mergeRows c d) = "Appearing in both sources" := by
  cases hcs : c.stockNum with
  | none => rw [hcs] at hc; cases hc
  | some a =>
    cases hds : d.stockNum with
    | none => rw [hds] at hd; cases hd
    | some b => simp [mergeRows, source_designation, hcs, hds]

theorem source_designation_d2c2Only (d : D2c2Row) (h : d.stockNum.isSome = true) :
    source_designation (d2c2OnlyRow d) = "Appearing only in D2C2" := by
  cases hds : d.stockNum with
  | none => rw [hds] at h; cases h
  | some b => simp [d2c2OnlyRow, source_designation, hds]

/-- C8 (amended): `Source Designation` is `Unknown` exactly when both
stock-number columns are absent; this can happen for a merged record
arising from a VIN-bearing input row whose stock-number cell is empty.
When every input row carries its stock number, every merged record is
classified into one of the three named categories. -/
theorem unknown_iff_no_stock_numbers :
    (∀ m : MergedRow, source_designation m = "Unknown" ↔
      (m.stockNumCdk = none ∧ m.stockNumD2c2 = none)) ∧
    (∀ (cdk : List CdkRow) (d2c2 : List D2c2Row),
      (∀ c ∈ cdk, c.stockNum.isSome = true) →
      (∀ d ∈ d2c2, d.stockNum.isSome = true) →
      ∀ m ∈ outerJoin cdk d2c2,
        source_designation m = "Appearing in both sources" ∨
        source_designation m = "Appearing only in CDK" ∨
        source_designation m = "Appearing only in D2C2") := by
  constructor
  · intro m
    rcases m with ⟨v, sc, st, su, dn, ba, sd, s2⟩
    cases sc <;> cases sd <;> simp [source_designation]
  · intro cdk d2c2 hc hd m hm
    rw [outerJoin, List.mem_append] at hm
    rcases hm with hm | hm
    · simp only [List.mem_flatMap] at hm
      obtain ⟨c, hcmem, hmc⟩ := hm
      by_cases he : (d2c2.filter (fun d => decide (d.vin = c.vin))).isEmpty
      · rw [if_pos he, List.mem_singleton] at hmc
        subst hmc
        exact Or.inr (Or.inl (source_designation_cdkOnly c (hc c hcmem)))
      · rw [if_neg he, List.mem_map] at hmc
        obtain ⟨d, hdm, hmd⟩ := hmc
        rw [List.mem_filter] at hdm
        subst hmd
        exact Or.inl (source_designation_merge c d (hc c hcmem) (hd d hdm.1))
    · rw [List.mem_map] at hm
      obtain ⟨d, hdm, hmd⟩ := hm
      rw [List.mem_filter] at hdm
      subst hmd
      exact Or.inr (Or.inr (source_designation_d2c2Only d (hd d hdm.1)))

/-- A CDK row with its stock number present. -/
def stockedCdk : CdkRow :=
  { vin := "7FA7", stockNum := some "C700", stockType := some "USED",
    status := some "T", dealNo := none, balance := some "$9.99" }

theorem unknown_iff_no_stock_numbers_witness :
    source_designation (cdkOnlyRow stockedCdk) = "Appearing in both sources" ∨
      source_designation (cdkOnlyRow stockedCdk) = "Appearing only in CDK" ∨
      source_designation (cdkOnlyRow stockedCdk) = "Appearing only in D2C2" :=
  unknown_iff_no_stock_numbers.2 [stockedCdk] [] (by decide) (by decide)
    (cdkOnlyRow stockedCdk) (by decide)

theorem removed_match_status_some (sn : String) (st : Option String) :
    removed_match_status (some sn) st =
      if st = some "G" then "Match and G" else "Match but not G" := by
  by_cases h : st = some "G" <;> simp [removed_match_status, h]

/-- C4: for a record whose D2C2 stock number is present (every
D2C2-only record is such), the removal pass left-joins it against the
removed list on stock-number equality: the record is always retained
(never dropped); when no removed entry matches it is kept once with
`No Match` and NaN removal columns; every matching removed entry
contributes an output row carrying that entry's columns, with status
`Match and G` exactly when the removed status equals `G` and
`Match but not G` otherwise; and every output row is of one of these
two forms. -/
theorem reconcileRow_left_join (removed : List RemovedRow) (f : FullRow) (sn : String)
    (hs : f.row.stockNumD2c2 = some sn) :
    reconcileRow removed f ≠ [] ∧
    ((∀ r ∈ removed, r.stockNum ≠ some sn) →
      reconcileRow removed f =
        [{ f with stockNumRemoved := none, statusRemoved := none,
                  removedMatchStatus := some "No Match" }]) ∧
    (∀ r ∈ removed, r.stockNum = some sn →
      { f with stockNumRemoved := some sn, statusRemoved := r.status,
               removedMatchStatus :=
                 some (if r.status = some "G" then "Match and G"
                       else "Match but not G") } ∈ reconcileRow removed f) ∧
    (∀ g ∈ reconcileRow removed f,
      (g.stockNumRemoved = none ∧ g.removedMatchStatus = some "No Match") ∨
      (∃ r ∈ removed, r.stockNum = some sn ∧ g.stockNumRemoved = some sn ∧
        g.statusRemoved = r.status ∧
        g.removedMatchStatus =
          some (if r.status = some "G" then "Match and G"
                else "Match but not G"))) := by
  have hmem : ∀ r : RemovedRow,
      r ∈ removed.filter (fun r => decide (r.stockNum = f.row.stockNumD2c2)) ↔
        (r ∈ removed ∧ r.stockNum = some sn) := by
    intro r
    rw [List.mem_filter, hs, decide_eq_true_eq]
  cases hms : removed.filter (fun r => decide (r.stockNum = f.row.stockNumD2c2)) with
  | nil =>
    have hrec : reconcileRow removed f =
        [{ f with stockNumRemoved := none, statusRemoved := none,
                  removedMatchStatus := some "No Match" }] := by
      unfold reconcileRow
      rw [hms]
    refine ⟨by simp [hrec], fun _ => hrec, ?_, ?_⟩
    · intro r hr hrsn
      have : r ∈ removed.filter (fun r => decide (r.stockNum = f.row.stockNumD2c2)) :=
        (hmem r).mpr ⟨hr, hrsn⟩
      rw [hms] at this
      cases this
    · intro g hg
      rw [hrec, List.mem_singleton] at hg
      subst hg
      exact Or.inl ⟨rfl, rfl⟩
  | cons a as =>
    have hrec : reconcileRow removed f =
        (a :: as).map (fun r =>
          { f with stockNumRemoved := r.stockNum, statusRemoved := r.status,
                   removedMatchStatus := some (removed_match_status r.stockNum r.status) }) := by
      unfold reconcileRow
      rw [hms]
    refine ⟨by simp [hrec], ?_, ?_, ?_⟩
    · intro hnone
      have ha : a ∈ removed ∧ a.stockNum = some sn := by
        rw [← hmem, hms]
        exact List.mem_cons_self a as
      exact absurd ha.2 (hnone a ha.1)
    · intro r hr hrsn
      have : r ∈ (a :: as) := by
        rw [← hms]
        exact (hmem r).mpr ⟨hr, hrsn⟩
      rw [hrec, List.mem_map]
      refine ⟨r, this, ?_⟩
      rw [hrsn, removed_match_status_some]
    · intro g hg
      rw [hrec, List.mem_map] at hg
      obtain ⟨r, hrmem, hgr⟩ := hg
      rw [← hms] at hrmem
      obtain ⟨hr, hrsn⟩ := (hmem r).mp hrmem
      subst hgr
      refine Or.inr ⟨r, hr, hrsn, ?_, rfl, ?_⟩
      · rw [hrsn]
      · rw [hrsn, removed_match_status_some]

/-- A fully annotated D2C2-only record, as evaluation produces it. -/
def sampleD2c2Full : FullRow :=
  { row := d2c2OnlyRow { vin := "2FA2", stockNum := some "SN1", status := some "Available" },
    sourceDesignation := "Appearing only in D2C2",
    criteriaCheck := "Stock Type; Status; Balance > $0",
    expectedInBothSources := false,
    stockNumRemoved := none, statusRemoved := none, removedMatchStatus := none }

theorem reconcileRow_left_join_witness :
    reconcileRow [{ stockNum := some "SN1", status := some "G" }] sampleD2c2Full ≠ [] :=
  (reconcileRow_left_join [{ stockNum := some "SN1", status := some "G" }]
    sampleD2c2Full "SN1" rfl).1

instance : IsTotal FullRow (fun a b => rowLE a b = true) where
  total a b := by
    unfold rowLE
    by_cases he : a.expectedInBothSources = b.expectedInBothSources
    · rw [if_pos he, if_pos he.symm]
      rcases le_total a.row.vin.toList b.row.vin.toList with h | h
      · exact Or.inl (decide_eq_true h)
      · exact Or.inr (decide_eq_true h)
    · rw [if_neg he, if_neg (fun h => he h.symm)]
      cases ha : a.expectedInBothSources with
      | true => exact Or.inl rfl
      | false =>
        cases hb : b.expectedInBothSources with
        | true => exact Or.inr rfl
        | false => exact absurd (ha.trans hb.symm) he

instance : IsTrans FullRow (fun a b => rowLE a b = true) where
  trans a b c hab hbc := by
    unfold rowLE at *
    cases ea : a.expectedInBothSources <;> cases eb : b.expectedInBothSources <;>
      cases ec : c.expectedInBothSources <;>
      simp [ea, eb, ec, decide_eq_true_eq] at hab hbc ⊢ <;>
      exact le_trans hab hbc

theorem update_criteria_check_fields (f : FullRow) :
    (update_criteria_check f).row = f.row ∧
    (update_criteria_check f).sourceDesignation = f.sourceDesignation ∧
    (update_criteria_check f).expectedInBothSources = f.expectedInBothSources ∧
    (update_criteria_check f).stockNumRemoved = f.stockNumRemoved ∧
    (update_criteria_check f).statusRemoved = f.statusRemoved ∧
    (update_criteria_check f).removedMatchStatus = f.removedMatchStatus := by
  unfold update_criteria_check
  split <;> exact ⟨rfl, rfl, rfl, rfl, rfl, rfl⟩

theorem reconcileRow_preserves (removed : List RemovedRow) (f : FullRow) :
    ∀ g ∈ reconcileRow removed f,
      g.row = f.row ∧ g.sourceDesignation = f.sourceDesignation ∧
      g.criteriaCheck = f.criteriaCheck ∧
      g.expectedInBothSources = f.expectedInBothSources := by
  intro g hg
  unfold reconcileRow at hg
  cases hms : removed.filter (fun r => decide (r.stockNum = f.row.stockNumD2c2)) with
  | nil =>
    rw [hms] at hg
    simp only [List.mem_singleton] at hg
    subst hg
    exact ⟨rfl, rfl, rfl, rfl⟩
  | cons a as =>
    rw [hms] at hg
    simp only [List.mem_map] at hg
    obtain ⟨r, -, hgr⟩ := hg
    subst hgr
    exact ⟨rfl, rfl, rfl, rfl⟩

theorem assemble_perm (removed : List RemovedRow) (ev : List FullRow) :
    (assemble removed ev).Perm
      ((ev.filter (fun f => !decide (f.sourceDesignation = "Appearing only in D2C2"))) ++
        reconcile_all removed ev) :=
  List.perm_insertionSort _ _

/-- C5: `Criteria Check` and `Expected in Both Sources` are computed
before the removal pass; the assembled report is, up to the final
sort, the untouched non-D2C2-only rows together with the reconciled
D2C2-only rows; the override rewrites `Criteria Check` to
`G Status in CDK` exactly on D2C2-only rows whose match status is
`Match and G`, leaving every other field, and every other row,
unchanged; and the reconciliation join itself never alters the
previously computed columns. -/
theorem criteria_override_frame (removed : List RemovedRow) (ev : List FullRow) :
    (assemble removed ev).Perm
      ((ev.filter (fun f => !decide (f.sourceDesignation = "Appearing only in D2C2"))) ++
        reconcile_all removed ev) ∧
    (∀ f : FullRow, f.sourceDesignation = "Appearing only in D2C2" →
      f.removedMatchStatus = some "Match and G" →
      update_criteria_check f = { f with criteriaCheck := "G Status in CDK" }) ∧
    (∀ f : FullRow, ¬ (f.sourceDesignation = "Appearing only in D2C2" ∧
        f.removedMatchStatus = some "Match and G") →
      update_criteria_check f = f) ∧
    (∀ f : FullRow, ∀ g ∈ reconcileRow removed f,
      g.row = f.row ∧ g.sourceDesignation = f.sourceDesignation ∧
      g.criteriaCheck = f.criteriaCheck ∧
      g.expectedInBothSources = f.expectedInBothSources) := by
  refine ⟨assemble_perm removed ev, ?_, ?_, fun f => reconcileRow_preserves removed f⟩
  · intro f h1 h2
    unfold update_criteria_check
    rw [if_pos ⟨h1, h2⟩]
  · intro f hn
    unfold update_criteria_check
    rw [if_neg hn]

theorem criteria_override_frame_witness :
    update_criteria_check sampleD2c2Full = sampleD2c2Full :=
  (criteria_override_frame [] []).2.2.1 sampleD2c2Full (by decide)

theorem assemble_sorted (removed : List RemovedRow) (ev : List FullRow) :
    (assemble removed ev).Pairwise (fun a b =>
      (a.expectedInBothSources = false → b.expectedInBothSources = false) ∧
      (a.expectedInBothSources = b.expectedInBothSources → a.row.vin ≤ b.row.vin)) := by
  have hs := List.sorted_insertionSort (fun a b : FullRow => rowLE a b = true)
    ((ev.filter (fun f => !decide (f.sourceDesignation = "Appearing only in D2C2"))) ++
      reconcile_all removed ev)
  refine List.Pairwise.imp ?_ hs
  intro a b hab
  unfold rowLE at hab
  by_cases he : a.expectedInBothSources = b.expectedInBothSources
  · rw [if_pos he, decide_eq_true_eq] at hab
    exact ⟨fun ha => he ▸ ha, fun _ => String.le_iff_toList_le.mpr hab⟩
  · rw [if_neg he] at hab
    refine ⟨fun ha => ?_, fun h => absurd h he⟩
    rw [ha] at hab
    cases hab

/-- The D2C2 row and the two removed entries of the duplication
example, and the two report rows they produce. -/
def dupVinD2c2 : D2c2Row := { vin := "2FA2", stockNum := some "SN1", status := some "Available" }

/-- First removed entry matching `dupVinD2c2`, status `G`. -/
def removedG : RemovedRow := { stockNum := some "SN1", status := some "G" }

/-- Second removed entry matching `dupVinD2c2`, status `B`. -/
def removedB : RemovedRow := { stockNum := some "SN1", status := some "B" }

/-- The first report row of the duplication example. -/
def dupRow1 : FullRow :=
  { row := d2c2OnlyRow dupVinD2c2,
    sourceDesignation := "Appearing only in D2C2",
    criteriaCheck := "G Status in CDK",
    expectedInBothSources := false,
    stockNumRemoved := some "SN1", statusRemoved := some "G",
    removedMatchStatus := some "Match and G" }

/-- The second report row of the duplication example. -/
def dupRow2 : FullRow :=
  { row := d2c2OnlyRow dupVinD2c2,
    sourceDesignation := "Appearing only in D2C2",
    criteriaCheck := "Stock Type; Status; Balance > $0",
    expectedInBothSources := false,
    stockNumRemoved := some "SN1", statusRemoved := some "B",
    removedMatchStatus := some "Match but not G" }

/-- C6 is false as stated: within one flag group the VINs need not be
strictly increasing, because one D2C2-only record fans out into one
output row per matching removed entry. With two removed entries whose
stock number matches the single D2C2 record, the report holds two rows
with equal flag and equal VIN `2FA2`. -/
theorem strict_vin_order_fails :
    process_files [] [dupVinD2c2] [removedG, removedB] = Except.ok [dupRow1, dupRow2] ∧
    ¬ ([dupRow1, dupRow2].Pairwise (fun a b : FullRow =>
        a.expectedInBothSources = b.expectedInBothSources → a.row.vin < b.row.vin)) := by
  refine ⟨by rfl, fun hp => ?_⟩
  have h := (List.pairwise_cons.mp hp).1 dupRow2 (List.mem_singleton.mpr rfl) rfl
  exact absurd h (lt_irrefl _)

/-- C6 (amended): in the final report every record flagged
`Expected in Both Sources` precedes every unflagged record, and within
equal flag values the VINs appear in non-decreasing lexicographic
order (not strictly increasing: the report can repeat a VIN). -/
theorem output_sorted (cdk : List CdkRow) (d2c2 : List D2c2Row)
    (removed : List RemovedRow) (out : List FullRow)
    (h : process_files cdk d2c2 removed = Except.ok out) :
    out.Pairwise (fun a b =>
      (a.expectedInBothSources = false → b.expectedInBothSources = false) ∧
      (a.expectedInBothSources = b.expectedInBothSources → a.row.vin ≤ b.row.vin)) := by
  unfold process_files at h
  cases hev : evalAll (outerJoin cdk d2c2) with
  | error e => rw [hev] at h; cases h
  | ok ev =>
    rw [hev] at h
    injection h with h
    subst h
    exact assemble_sorted removed ev

/-- The report produced for one D2C2 row and an empty removed list. -/
def outSingle : List FullRow :=
  [{ row := d2c2OnlyRow { vin := "8FA8", stockNum := some "SN8", status := some "Available" },
     sourceDesignation := "Appearing only in D2C2",
     criteriaCheck := "Stock Type; Status; Balance > $0",
     expectedInBothSources := false,
     stockNumRemoved := none, statusRemoved := none,
     removedMatchStatus := some "No Match" }]

theorem output_sorted_witness :
    outSingle.Pairwise (fun a b =>
      (a.expectedInBothSources = false → b.expectedInBothSources = false) ∧
      (a.expectedInBothSources = b.expectedInBothSources → a.row.vin ≤ b.row.vin)) :=
  output_sorted [] [{ vin := "8FA8", stockNum := some "SN8", status := some "Available" }]
    [] outSingle (by rfl)

theorem countP_flatMap {α β : Type} (p : β → Bool) (h : α → List β) :
    ∀ l : List α, ((l.flatMap h).countP p) = (l.map (fun a => (h a).countP p)).sum
  | [] => rfl
  | a :: l => by
    rw [List.flatMap_cons, List.countP_append, List.map_cons, List.sum_cons,
      countP_flatMap p h l]

theorem reconcileRow_length (removed : List RemovedRow) (f : FullRow) :
    (reconcileRow removed f).length =
      max 1 (removed.filter (fun r => decide (r.stockNum = f.row.stockNumD2c2))).length := by
  unfold reconcileRow
  cases hms : removed.filter (fun r => decide (r.stockNum = f.row.stockNumD2c2)) with
  | nil => rfl
  | cons a as => simp [List.length_map]

theorem sum_single_contrib {α : Type} [DecidableEq α] (f : α) (c : α → Nat) :
    ∀ l : List α, (∀ a ∈ l, a ≠ f → c a = 0) →
      (l.map c).sum = (l.countP (fun a => decide (a = f))) * c f
  | [], _ => by simp
  | a :: l, h => by
    rw [List.map_cons, List.sum_cons, List.countP_cons,
      sum_single_contrib f c l (fun b hb hbf => h b (List.mem_cons_of_mem _ hb) hbf)]
    by_cases ha : a = f
    · subst ha
      simp [Nat.add_mul, Nat.add_comm]
    · rw [h a (List.mem_cons_self a l) ha]
      simp [ha]

/-- C10: when the removed list holds k > 1 entries whose stock number
equals the D2C2 stock number of a D2C2-only evaluated record (the only
evaluated record carrying its merged row), the final report holds
exactly k rows for that merged row, one per matching removed entry:
the pipeline deduplicates nothing, so one input VIN yields several
output rows. -/
theorem removed_fanout (cdk : List CdkRow) (d2c2 : List D2c2Row)
    (removed : List RemovedRow) (ev : List FullRow) (f : FullRow) (k : Nat)
    (hev : evalAll (outerJoin cdk d2c2) = Except.ok ev)
    (hd : f.sourceDesignation = "Appearing only in D2C2")
    (hone : ev.countP (fun g => decide (g = f)) = 1)
    (huniq : ∀ g ∈ ev, g.row = f.row → g = f)
    (hk : (removed.filter (fun r => decide (r.stockNum = f.row.stockNumD2c2))).length = k)
    (h2 : 2 ≤ k) :
    (process_files cdk d2c2 removed).map
      (fun out => out.countP (fun g => decide (g.row = f.row))) = Except.ok k := by
  unfold process_files
  rw [hev]
  show Except.ok ((assemble removed ev).countP (fun g => decide (g.row = f.row))) = Except.ok k
  congr 1
  have hperm := (assemble_perm removed ev).countP_eq (fun g => decide (g.row = f.row))
  rw [hperm, List.countP_append]
  have hrest : (ev.filter (fun g =>
      !decide (g.sourceDesignation = "Appearing only in D2C2"))).countP
        (fun g => decide (g.row = f.row)) = 0 := by
    rw [List.countP_eq_zero]
    intro a ha
    rw [List.mem_filter] at ha
    intro hp
    have haf : a = f := huniq a ha.1 (of_decide_eq_true hp)
    subst haf
    rw [hd] at ha
    simp at ha
  have hupd : ∀ a : FullRow,
      decide ((update_criteria_check a).row = f.row) = decide (a.row = f.row) := by
    intro a
    rw [(update_criteria_check_fields a).1]
  have hreco : (reconcile_all removed ev).countP (fun g => decide (g.row = f.row)) = k := by
    unfold reconcile_all
    rw [List.countP_map]
    have hcomp : ((ev.filter (fun g =>
        decide (g.sourceDesignation = "Appearing only in D2C2"))).flatMap
          (reconcileRow removed)).countP
            ((fun g => decide (g.row = f.row)) ∘ update_criteria_check) =
        ((ev.filter (fun g =>
        decide (g.sourceDesignation = "Appearing only in D2C2"))).flatMap
          (reconcileRow removed)).countP (fun g => decide (g.row = f.row)) := by
      apply List.countP_congr
      intro a _
      rw [Function.comp_apply, hupd a]
    rw [hcomp, countP_flatMap]
    have hc0 : ∀ a ∈ ev.filter (fun g =>
        decide (g.sourceDesignation = "Appearing only in D2C2")), a ≠ f →
        (reconcileRow removed a).countP (fun g => decide (g.row = f.row)) = 0 := by
      intro a ha hne
      rw [List.mem_filter] at ha
      rw [List.countP_eq_zero]
      intro g hg hp
      have hga := (reconcileRow_preserves removed a g hg).1
      have : a.row = f.row := by rw [← hga]; exact of_decide_eq_true hp
      exact hne (huniq a ha.1 this)
    have hcf : (reconcileRow removed f).countP (fun g => decide (g.row = f.row)) = k := by
      rw [List.countP_eq_length.mpr, reconcileRow_length, hk]
      · omega
      · intro g hg
        exact decide_eq_true ((reconcileRow_preserves removed f g hg).1)
    rw [sum_single_contrib f
      (fun a => (reconcileRow removed a).countP (fun g => decide (g.row = f.row))) _ hc0]
    have hcount1 : (ev.filter (fun g =>
        decide (g.sourceDesignation = "Appearing only in D2C2"))).countP
          (fun a => decide (a = f)) = 1 := by
      rw [List.countP_filter]
      rw [show (fun a : FullRow => decide (a = f) &&
          decide (a.sourceDesignation = "Appearing only in D2C2")) =
          (fun a : FullRow => decide (a = f)) from ?_]
      · exact hone
      · funext a
        by_cases ha : a = f
        · subst ha
          simp [hd]
        · simp [ha]
    rw [hcount1, hcf, Nat.one_mul]
  rw [hrest, hreco, Nat.zero_add]

/-- The evaluated record of the duplication example, before the
removal pass. -/
def fDup : FullRow :=
  { row := d2c2OnlyRow dupVinD2c2,
    sourceDesignation := "Appearing only in D2C2",
    criteriaCheck := "Stock Type; Status; Balance > $0",
    expectedInBothSources := false,
    stockNumRemoved := none, statusRemoved := none,
    removedMatchStatus := none }

theorem removed_fanout_witness :
    (process_files [] [dupVinD2c2] [removedG, removedB]).map
      (fun out => out.countP (fun g => decide (g.row = fDup.row))) = Except.ok 2 :=
  removed_fanout [] [dupVinD2c2] [removedG, removedB] [fDup] fDup 2
    (by rfl) rfl (by decide) (by decide) (by rfl) (by decide)
